import Mathlib

/-
  Shallow embedding of the goargs command-line flag parser
  (package parser: Parser, flagInfo, registration, Parse, Usage).

  Go strings are modelled as lists of characters (ASCII inputs are the
  only ones the development exercises, where byte- and rune-indexing
  coincide).  The mutable target slots reached through the registered
  pointers are modelled as a store, a function from slot numbers to
  values; registration receives the slot number the caller chose, just
  as the Go caller chooses which pointer to hand in.  The parse-time
  map setFlags is modelled as an association list with unique keys;
  because a Go map is iterated in unspecified order, the final
  unknown-flag scan takes the iteration order as an explicit parameter
  (ParseWith), and Parse instantiates it with the insertion order.
-/

namespace GoArgs

/-- A Go string, as its list of characters. -/
abbrev GoString := List Char

/-- Embed a Lean string literal as a GoString. -/
def str (s : String) : GoString := s.toList

/-- The value held in a registered target slot (Go: the pointee of the
interface-typed ptr field). -/
inductive Value where
  | str (s : GoString) : Value
  | int (n : Int) : Value
  | bool (b : Bool) : Value
deriving DecidableEq

/-- The kind field of a flagInfo: "string", "int" or "bool". -/
inductive Kind where
  | kstring : Kind
  | kint : Kind
  | kbool : Kind
deriving DecidableEq, BEq

/-- Go: flagInfo - metadata about a registered flag.  The ptr field is
the slot number the caller-supplied pointer refers to. -/
structure flagInfo where
  shortName : GoString
  longName : GoString
  ptr : Nat
  defaultValue : Value
  description : GoString
  kind : Kind
deriving DecidableEq

/-- The caller-owned mutable cells the registered pointers point into. -/
abbrev Store := Nat → Value

/-- Writing through a pointer: update the store at one slot. -/
def updStore (s : Store) (k : Nat) (v : Value) : Store :=
  fun n => if n = k then v else s n

/-- Go: Parser - flags, positional arguments, output sink, program name. -/
structure Parser where
  flags : List flagInfo
  positional : List GoString
  output : GoString
  program : GoString

/-- Go: NewParser - empty registry, empty positionals, default program name. -/
def NewParser (out : GoString) : Parser :=
  { flags := [], positional := [], output := out, program := str "program" }

/-- Go: SetProgramName. -/
def SetProgramName (p : Parser) (name : GoString) : Parser :=
  { p with program := name }

/-- Go: StringVar - set the slot to the default, append the descriptor. -/
def StringVar (p : Parser) (store : Store) (ptr : Nat)
    (shortName longName dflt descr : GoString) : Parser × Store :=
  ({ p with flags := p.flags ++ [{
      shortName := shortName,
      longName := longName,
      ptr := ptr,
      defaultValue := Value.str dflt,
      description := descr,
      kind := Kind.kstring }] },
   updStore store ptr (Value.str dflt))

/-- Go: IntVar. -/
def IntVar (p : Parser) (store : Store) (ptr : Nat)
    (shortName longName : GoString) (dflt : Int) (descr : GoString) : Parser × Store :=
  ({ p with flags := p.flags ++ [{
      shortName := shortName,
      longName := longName,
      ptr := ptr,
      defaultValue := Value.int dflt,
      description := descr,
      kind := Kind.kint }] },
   updStore store ptr (Value.int dflt))

/-- Go: BoolVar. -/
def BoolVar (p : Parser) (store : Store) (ptr : Nat)
    (shortName longName : GoString) (dflt : Bool) (descr : GoString) : Parser × Store :=
  ({ p with flags := p.flags ++ [{
      shortName := shortName,
      longName := longName,
      ptr := ptr,
      defaultValue := Value.bool dflt,
      description := descr,
      kind := Kind.kbool }] },
   updStore store ptr (Value.bool dflt))

/-- Go: contains - whether a string slice includes an item. -/
def contains (slice : List GoString) (item : GoString) : Bool :=
  slice.any (fun s => s == item)

/-- Go: Parser.hasFlag - whether a flag name is registered. -/
def hasFlag (flags : List flagInfo) (name : GoString) : Bool :=
  flags.any (fun fi => fi.shortName == name || fi.longName == name)

/-- Go: Parser.needsValue - whether a flag name requires a value
(registered with a non-bool kind). -/
def needsValue (flags : List flagInfo) (name : GoString) : Bool :=
  flags.any (fun fi => (fi.shortName == name || fi.longName == name)
    && !(fi.kind == Kind.kbool))

/-- The setFlags map of Parse: alias to raw value, keys unique. -/
abbrev SF := List (GoString × GoString)

/-- Go: setFlags[k] = v - update the entry if the key is present,
otherwise add it. -/
def setFlag : SF → GoString → GoString → SF
  | [], k, v => [(k, v)]
  | (k', v') :: rest, k, v =>
    if k = k' then (k, v) :: rest else (k', v') :: setFlag rest k v

/-- Go: val, ok := setFlags[k]. -/
def getFlag : SF → GoString → Option GoString
  | [], _ => none
  | (k', v') :: rest, k => if k = k' then some v' else getFlag rest k

/-- Go: delete(setFlags, k). -/
def delFlag : SF → GoString → SF
  | [], _ => []
  | (k', v') :: rest, k => if k = k' then rest else (k', v') :: delFlag rest k

/-- The keys of the setFlags map, in insertion order. -/
def keysOf (sf : SF) : List GoString := sf.map Prod.fst

/-- Go: strings.SplitN(s, sep-equals, 2) - the parts before and after
the first equals sign (only invoked on strings that contain one). -/
def splitEq : GoString → GoString × GoString
  | [] => ([], [])
  | c :: rest =>
    if c = '=' then ([], rest)
    else ((c :: (splitEq rest).1), (splitEq rest).2)

/-- The token-scanning loop of Parse: classify each argument as a long
flag, a short flag or a positional, resolving equals-joined and
space-separated value forms, accumulating positionals and the setFlags
map.  The two-token patterns mirror the manual index skip (i++) of the
Go loop. -/
def scanArgs (flags : List flagInfo) : List GoString → List GoString → SF →
    List GoString × SF
  | [], pos, sf => (pos, sf)
  | [arg], pos, sf =>
    if (str "--").isPrefixOf arg then
      if arg.contains '=' then
        (pos, setFlag sf (splitEq (arg.drop 2)).1 (splitEq (arg.drop 2)).2)
      else
        (pos, setFlag sf (arg.drop 2) (str "true"))
    else if (str "-").isPrefixOf arg && !(arg == str "-") then
      if arg.contains '=' then
        (pos, setFlag sf (splitEq (arg.drop 1)).1 (splitEq (arg.drop 1)).2)
      else
        (pos, setFlag sf (arg.drop 1) (str "true"))
    else
      (pos ++ [arg], sf)
  | arg :: next :: rest, pos, sf =>
    if (str "--").isPrefixOf arg then
      if arg.contains '=' then
        scanArgs flags (next :: rest) pos
          (setFlag sf (splitEq (arg.drop 2)).1 (splitEq (arg.drop 2)).2)
      else
        if !((str "-").isPrefixOf next) && needsValue flags (arg.drop 2) then
          scanArgs flags rest pos (setFlag sf (arg.drop 2) next)
        else
          scanArgs flags (next :: rest) pos (setFlag sf (arg.drop 2) (str "true"))
    else if (str "-").isPrefixOf arg && !(arg == str "-") then
      if arg.contains '=' then
        scanArgs flags (next :: rest) pos
          (setFlag sf (splitEq (arg.drop 1)).1 (splitEq (arg.drop 1)).2)
      else
        if !((str "-").isPrefixOf next) && needsValue flags (arg.drop 1) then
          scanArgs flags rest pos (setFlag sf (arg.drop 1) next)
        else
          scanArgs flags (next :: rest) pos (setFlag sf (arg.drop 1) (str "true"))
    else
      scanArgs flags (next :: rest) (pos ++ [arg]) sf

/-- The decimal value of one character, if it is a digit. -/
def digitVal (c : Char) : Option Nat :=
  if '0' ≤ c && c ≤ '9' then some (c.toNat - '0'.toNat) else none

/-- Accumulate decimal digits; fail on the first non-digit. -/
def readDigitsAux : GoString → Nat → Option Nat
  | [], acc => some acc
  | c :: rest, acc =>
    match digitVal c with
    | none => none
    | some d => readDigitsAux rest (10 * acc + d)

/-- A non-empty all-digit string read as a natural number. -/
def readDigits : GoString → Option Nat
  | [] => none
  | cs => readDigitsAux cs 0

/-- Go: strconv.Atoi - optional sign, decimal digits, 64-bit range. -/
def atoi (s : GoString) : Option Int :=
  match s with
  | '+' :: rest =>
    match readDigits rest with
    | none => none
    | some n => if n ≤ 9223372036854775807 then some (Int.ofNat n) else none
  | '-' :: rest =>
    match readDigits rest with
    | none => none
    | some n => if n ≤ 9223372036854775808 then some (-(Int.ofNat n)) else none
  | _ =>
    match readDigits s with
    | none => none
    | some n => if n ≤ 9223372036854775807 then some (Int.ofNat n) else none

/-- The outcomes of Parse that are not plain success. -/
inductive ParseError where
  | helpRequested : ParseError
  | invalidValue (shortName longName val : GoString) : ParseError
  | unknownFlag (name : GoString) : ParseError
deriving DecidableEq

/-- Go: ErrHelpRequested. -/
def ErrHelpRequested : ParseError := ParseError.helpRequested

/-- One lookup of the value-applying loop of Parse: if the name is a
key of setFlags, coerce the raw value by the flag kind, write the slot,
and delete the key; an unparsable value is an error and leaves both the
store and the map as they were. -/
def applyName (fi : flagInfo) (name : GoString) (store : Store) (sf : SF) :
    Store × SF × Option ParseError :=
  match getFlag sf name with
  | none => (store, sf, none)
  | some val =>
    match fi.kind with
    | Kind.kstring =>
      (updStore store fi.ptr (Value.str val), delFlag sf name, none)
    | Kind.kint =>
      match atoi val with
      | none => (store, sf, some (ParseError.invalidValue fi.shortName fi.longName val))
      | some n => (updStore store fi.ptr (Value.int n), delFlag sf name, none)
    | Kind.kbool =>
      if val == str "true" then
        (updStore store fi.ptr (Value.bool true), delFlag sf name, none)
      else if val == str "false" then
        (updStore store fi.ptr (Value.bool false), delFlag sf name, none)
      else
        (store, sf, some (ParseError.invalidValue fi.shortName fi.longName val))

/-- One iteration of the value-applying loop: the short name is looked
up first, then the long name; an error stops the iteration. -/
def applyFlag (fi : flagInfo) (store : Store) (sf : SF) :
    Store × SF × Option ParseError :=
  match applyName fi fi.shortName store sf with
  | (store1, sf1, some e) => (store1, sf1, some e)
  | (store1, sf1, none) => applyName fi fi.longName store1 sf1

/-- The value-applying loop of Parse over a flag list (Parse runs it on
the reversed registry so that the last registration wins). -/
def applyAll : List flagInfo → Store → SF → Store × SF × Option ParseError
  | [], store, sf => (store, sf, none)
  | fi :: rest, store, sf =>
    match applyFlag fi store sf with
    | (store1, sf1, some e) => (store1, sf1, some e)
    | (store1, sf1, none) => applyAll rest store1 sf1

/-- The unknown-flag scan of Parse: the first name in the given
iteration order that is not registered. -/
def firstUnknown (flags : List flagInfo) : List GoString → Option GoString
  | [] => none
  | k :: rest => if hasFlag flags k then firstUnknown flags rest else some k

/-- Go verb percent-q on the default of a string flag (the escaping of
non-printable characters, which no registered default here uses, is
omitted). -/
def goQuote (s : GoString) : GoString :=
  '"' :: s.foldr (fun c acc => (if c = '"' || c = '\\' then ['\\', c] else [c]) ++ acc) ['"']

/-- The flagNames switch of Usage: dash-prefixed alias display forms. -/
def flagNamesOf (fi : flagInfo) : GoString :=
  if !(fi.shortName == ([] : GoString)) && !(fi.longName == ([] : GoString)) then
    str "-" ++ fi.shortName ++ str ", --" ++ fi.longName
  else if !(fi.shortName == ([] : GoString)) then
    str "-" ++ fi.shortName
  else if !(fi.longName == ([] : GoString)) then
    str "--" ++ fi.longName
  else
    []

/-- The default value of a descriptor in the literal form Usage prints
(quoted string, bare decimal, true or false). -/
def renderDefault (fi : flagInfo) : GoString :=
  match fi.kind, fi.defaultValue with
  | Kind.kstring, Value.str s => goQuote s
  | Kind.kint, Value.int n => str (toString n)
  | Kind.kbool, Value.bool b => if b then str "true" else str "false"
  | _, _ => []

/-- One descriptor block of the usage text. -/
def usageLine (fi : flagInfo) : GoString :=
  match fi.kind with
  | Kind.kstring =>
    str "  " ++ flagNamesOf fi ++ str " string\n        " ++ fi.description
      ++ str " (default " ++ renderDefault fi ++ str ")\n"
  | Kind.kint =>
    str "  " ++ flagNamesOf fi ++ str " int\n        " ++ fi.description
      ++ str " (default " ++ renderDefault fi ++ str ")\n"
  | Kind.kbool =>
    str "  " ++ flagNamesOf fi ++ str "\n        " ++ fi.description
      ++ str " (default " ++ renderDefault fi ++ str ")\n"

/-- The full usage text: header line, then one block per descriptor in
registration order. -/
def usageString (p : Parser) : GoString :=
  str "Usage of " ++ p.program ++ str ":\n" ++ (p.flags.map usageLine).flatten

/-- Go: Parser.Usage - write the usage text to the output sink. -/
def Usage (p : Parser) : Parser :=
  { p with output := p.output ++ usageString p }

/-- Go: Parser.Parse, with the iteration order of the final range over
the setFlags map (a Go map, iterated in unspecified order) supplied as
a parameter: help pre-scan, token scan, value application in reverse
registration order, unknown-flag check. -/
def ParseWith (p : Parser) (store : Store) (args : List GoString)
    (it : SF → List GoString) : Parser × Store × Option ParseError :=
  if contains args (str "--help") || contains args (str "-h") then
    (Usage p, store, some ErrHelpRequested)
  else
    let scanned := scanArgs p.flags args [] []
    let p2 := { p with positional := scanned.1 }
    match applyAll p.flags.reverse store scanned.2 with
    | (store1, _, some e) => (p2, store1, some e)
    | (store1, sf1, none) =>
      match firstUnknown p.flags (it sf1) with
      | some k => (p2, store1, some (ParseError.unknownFlag k))
      | none => (p2, store1, none)

/-- Go: Parser.Parse - the map iteration order instantiated with the
insertion order of the association list. -/
def Parse (p : Parser) (store : Store) (args : List GoString) :
    Parser × Store × Option ParseError :=
  ParseWith p store args keysOf

/-- Go: Parser.Args. -/
def Args (p : Parser) : List GoString := p.positional

/-- The alias part a token contributes to the setFlags map, if any
(the positional tokens contribute none). -/
def tokenKey (arg : GoString) : Option GoString :=
  if (str "--").isPrefixOf arg then
    if arg.contains '=' then some (splitEq (arg.drop 2)).1
    else some (arg.drop 2)
  else if (str "-").isPrefixOf arg && !(arg == str "-") then
    if arg.contains '=' then some (splitEq (arg.drop 1)).1
    else some (arg.drop 1)
  else none

/-! Concrete registrations used by the individual-scenario claims. -/

/-- An initial store whose every slot holds an arbitrary string value. -/
def st0 : Store := fun _ => Value.str []

/-- Registrations of the concrete scenario: a string flag n/name, an
int flag a/age, a bool flag v/verbose. -/
def c1regs : Parser × Store :=
  let r1 := StringVar (NewParser []) st0 0 (str "n") (str "name") (str "default")
    (str "The name")
  let r2 := IntVar r1.1 r1.2 1 (str "a") (str "age") 0 (str "The age")
  BoolVar r2.1 r2.2 2 (str "v") (str "verbose") false (str "Verbose output")

/-- The token list of the concrete scenario. -/
def c1args : List GoString := [str "-n", str "Jane", str "-a=25", str "-v", str "push"]

/-- Two string descriptors sharing the short alias n, with distinct
slots and distinct defaults. -/
def c3regs : Parser × Store :=
  let r1 := StringVar (NewParser []) st0 0 (str "n") (str "name1") (str "d1") []
  StringVar r1.1 r1.2 1 (str "n") (str "name2") (str "d2") []

/-- A single string flag n/name with default d. -/
def c4regs : Parser × Store :=
  StringVar (NewParser []) st0 0 (str "n") (str "name") (str "d") []

/-- A single int flag a/age. -/
def c4iregs : Parser × Store :=
  IntVar (NewParser []) st0 0 (str "a") (str "age") 7 []

/-- A single string descriptor with both aliases empty. -/
def c5regs : Parser × Store :=
  StringVar (NewParser []) st0 0 [] [] (str "d") []

/-- Two string descriptors with disjoint aliases sharing slot 0. -/
def c6regs : Parser × Store :=
  let r1 := StringVar (NewParser []) st0 0 (str "a") (str "aa") (str "defA") []
  StringVar r1.1 r1.2 0 (str "b") (str "bb") (str "defB") []

/-- An int flag a/age registered before a string flag s/st. -/
def c8regs : Parser × Store :=
  let r1 := IntVar (NewParser []) st0 0 (str "a") (str "age") 0 []
  StringVar r1.1 r1.2 1 (str "s") (str "st") (str "d") []

/-- A token list naming two distinct unregistered aliases. -/
def c9args : List GoString := [str "-x", str "-y"]

/-- The descriptor of the alias-equivalence scenario: short alias x,
long alias longname, slot 0, any kind and default. -/
def c7flag (k : Kind) (dflt : Value) : flagInfo :=
  { shortName := str "x", longName := str "longname", ptr := 0,
    defaultValue := dflt, description := [], kind := k }

/-- A parser holding exactly the alias-equivalence descriptor. -/
def c7parser (k : Kind) (dflt : Value) : Parser :=
  { flags := [c7flag k dflt], positional := [], output := [], program := str "program" }

/-- The descriptor of the short-and-long scenario: short alias n, long
alias name, slot 0, string kind. -/
def c10flag (dflt : GoString) : flagInfo :=
  { shortName := str "n", longName := str "name", ptr := 0,
    defaultValue := Value.str dflt, description := [], kind := Kind.kstring }

/-- A parser holding exactly the short-and-long descriptor. -/
def c10parser (dflt : GoString) : Parser :=
  { flags := [c10flag dflt], positional := [], output := [], program := str "program" }

/-! Lemmas about the setFlags association list. -/

theorem keysOf_nil : keysOf [] = [] := rfl

theorem keysOf_cons (k v : GoString) (rest : SF) :
    keysOf ((k, v) :: rest) = k :: keysOf rest := rfl

theorem getFlag_eq_none {sf : SF} {a : GoString} (h : a ∉ keysOf sf) :
    getFlag sf a = none := by
  induction sf with
  | nil => rfl
  | cons kv rest ih =>
    obtain ⟨k', v'⟩ := kv
    rw [keysOf_cons, List.mem_cons] at h
    push_neg at h
    rw [getFlag, if_neg h.1]
    exact ih h.2

theorem mem_keysOf_delFlag {sf : SF} {n x : GoString}
    (h : x ∈ keysOf (delFlag sf n)) : x ∈ keysOf sf := by
  induction sf with
  | nil => simpa [delFlag] using h
  | cons kv rest ih =>
    obtain ⟨k', v'⟩ := kv
    rw [delFlag] at h
    by_cases hk : n = k'
    · rw [if_pos hk] at h
      exact List.mem_cons_of_mem _ h
    · rw [if_neg hk] at h
      rw [keysOf_cons, List.mem_cons] at h ⊢
      rcases h with h | h
      · exact Or.inl h
      · exact Or.inr (ih h)

theorem getFlag_delFlag_ne {sf : SF} {n a : GoString} (h : a ≠ n) :
    getFlag (delFlag sf n) a = getFlag sf a := by
  induction sf with
  | nil => rfl
  | cons kv rest ih =>
    obtain ⟨k', v'⟩ := kv
    rw [delFlag]
    by_cases hk : n = k'
    · rw [if_pos hk, getFlag, if_neg (by rw [hk] at h; exact h)]
    · rw [if_neg hk, getFlag, getFlag]
      by_cases ha : a = k'
      · rw [if_pos ha, if_pos ha]
      · rw [if_neg ha, if_neg ha]
        exact ih

theorem mem_keysOf_setFlag {sf : SF} {k v x : GoString}
    (h : x ∈ keysOf (setFlag sf k v)) : x = k ∨ x ∈ keysOf sf := by
  induction sf with
  | nil =>
    rw [setFlag, keysOf_cons] at h
    simpa using h
  | cons kv' rest ih =>
    obtain ⟨k', v'⟩ := kv'
    rw [setFlag] at h
    by_cases hk : k = k'
    · rw [if_pos hk, keysOf_cons, List.mem_cons] at h
      rcases h with h | h
      · exact Or.inl h
      · exact Or.inr (by rw [keysOf_cons, List.mem_cons]; exact Or.inr h)
    · rw [if_neg hk, keysOf_cons, List.mem_cons] at h
      rcases h with h | h
      · exact Or.inr (by rw [keysOf_cons, List.mem_cons]; exact Or.inl h)
      · rcases ih h with h' | h'
        · exact Or.inl h'
        · exact Or.inr (by rw [keysOf_cons, List.mem_cons]; exact Or.inr h')

/-! Lemmas about the store update. -/

theorem updStore_ne {s : Store} {k n : Nat} {v : Value} (h : n ≠ k) :
    updStore s k v n = s n := by
  rw [updStore, if_neg h]

/-! Lemmas about one lookup step of the value-applying loop. -/

theorem applyName_store_eq {fi : flagInfo} {name : GoString} {store : Store} {sf : SF}
    {k : Nat} (h : fi.ptr = k → name ∉ keysOf sf) :
    (applyName fi name store sf).1 k = store k := by
  by_cases hp : fi.ptr = k
  · simp [applyName, getFlag_eq_none (h hp)]
  · cases hg : getFlag sf name with
    | none => simp [applyName, hg]
    | some val =>
      cases hk : fi.kind with
      | kstring => simp [applyName, hg, hk, updStore_ne (fun hh => hp hh.symm)]
      | kint =>
        cases ha : atoi val with
        | none => simp [applyName, hg, hk, ha]
        | some n => simp [applyName, hg, hk, ha, updStore_ne (fun hh => hp hh.symm)]
      | kbool =>
        by_cases h1 : (val == str "true") = true
        · simp [applyName, hg, hk, h1, updStore_ne (fun hh => hp hh.symm)]
        · by_cases h2 : (val == str "false") = true
          · simp [applyName, hg, hk, h1, h2, updStore_ne (fun hh => hp hh.symm)]
          · simp [applyName, hg, hk, h1, h2]

theorem applyName_keys_subset {fi : flagInfo} {name : GoString} {store : Store} {sf : SF}
    {x : GoString} (h : x ∈ keysOf (applyName fi name store sf).2.1) : x ∈ keysOf sf := by
  cases hg : getFlag sf name with
  | none => simpa [applyName, hg] using h
  | some val =>
    cases hk : fi.kind with
    | kstring =>
      rw [applyName] at h
      rw [hg] at h
      simp only [hk] at h
      exact mem_keysOf_delFlag h
    | kint =>
      cases ha : atoi val with
      | none => simpa [applyName, hg, hk, ha] using h
      | some n =>
        rw [applyName] at h
        rw [hg] at h
        simp only [hk, ha] at h
        exact mem_keysOf_delFlag h
    | kbool =>
      by_cases h1 : (val == str "true") = true
      · rw [applyName] at h
        rw [hg] at h
        simp only [hk, h1, if_pos] at h
        exact mem_keysOf_delFlag h
      · by_cases h2 : (val == str "false") = true
        · rw [applyName] at h
          rw [hg] at h
          simp only [hk, h1, h2, Bool.false_eq_true, if_false, if_pos] at h
          exact mem_keysOf_delFlag h
        · simpa [applyName, hg, hk, h1, h2] using h

theorem applyName_err_shape {fi : flagInfo} {name : GoString} {store : Store} {sf : SF}
    {e : ParseError} (h : (applyName fi name store sf).2.2 = some e) :
    ∃ s l v, e = ParseError.invalidValue s l v := by
  cases hg : getFlag sf name with
  | none => simp [applyName, hg] at h
  | some val =>
    cases hk : fi.kind with
    | kstring => simp [applyName, hg, hk] at h
    | kint =>
      cases ha : atoi val with
      | none =>
        rw [applyName] at h
        rw [hg] at h
        simp only [hk, ha, Option.some.injEq] at h
        exact ⟨_, _, _, h.symm⟩
      | some n => simp [applyName, hg, hk, ha] at h
    | kbool =>
      by_cases h1 : (val == str "true") = true
      · simp [applyName, hg, hk, h1] at h
      · by_cases h2 : (val == str "false") = true
        · simp [applyName, hg, hk, h1, h2] at h
        · rw [applyName] at h
          rw [hg] at h
          simp only [hk, h1, h2, Bool.false_eq_true, if_false, Option.some.injEq] at h
          exact ⟨_, _, _, h.symm⟩

theorem applyName_getFlag_ne {fi : flagInfo} {name : GoString} {store : Store} {sf : SF}
    {a : GoString} (h : name ≠ a) :
    getFlag (applyName fi name store sf).2.1 a = getFlag sf a := by
  cases hg : getFlag sf name with
  | none => simp [applyName, hg]
  | some val =>
    cases hk : fi.kind with
    | kstring => simp [applyName, hg, hk, getFlag_delFlag_ne (fun hh => h hh.symm)]
    | kint =>
      cases ha : atoi val with
      | none => simp [applyName, hg, hk, ha]
      | some n => simp [applyName, hg, hk, ha, getFlag_delFlag_ne (fun hh => h hh.symm)]
    | kbool =>
      by_cases h1 : (val == str "true") = true
      · simp [applyName, hg, hk, h1, getFlag_delFlag_ne (fun hh => h hh.symm)]
      · by_cases h2 : (val == str "false") = true
        · simp [applyName, hg, hk, h1, h2, getFlag_delFlag_ne (fun hh => h hh.symm)]
        · simp [applyName, hg, hk, h1, h2]


/-! Lemmas about one flag of the value-applying loop. -/

theorem applyFlag_store_eq {fi : flagInfo} {store : Store} {sf : SF} {k : Nat}
    (h : fi.ptr = k → (fi.shortName ∉ keysOf sf ∧ fi.longName ∉ keysOf sf)) :
    (applyFlag fi store sf).1 k = store k := by
  rw [applyFlag]
  cases h1 : applyName fi fi.shortName store sf with
  | mk store1 rest1 =>
    obtain ⟨sf1, err1⟩ := rest1
    have hst1 : store1 k = store k := by
      have := @applyName_store_eq fi fi.shortName store sf k (fun hp => (h hp).1)
      rw [h1] at this
      exact this
    cases err1 with
    | some e => exact hst1
    | none =>
      have hkeys : ∀ x, x ∈ keysOf sf1 → x ∈ keysOf sf := by
        intro x hx
        have := @applyName_keys_subset fi fi.shortName store sf x (by rw [h1]; exact hx)
        exact this
      have := @applyName_store_eq fi fi.longName store1 sf1 k
        (fun hp => fun hmem => (h hp).2 (hkeys _ hmem))
      rw [this, hst1]

theorem applyFlag_keys_subset {fi : flagInfo} {store : Store} {sf : SF}
    {x : GoString} (h : x ∈ keysOf (applyFlag fi store sf).2.1) : x ∈ keysOf sf := by
  rw [applyFlag] at h
  cases h1 : applyName fi fi.shortName store sf with
  | mk store1 rest1 =>
    obtain ⟨sf1, err1⟩ := rest1
    rw [h1] at h
    have hkeys1 : ∀ y, y ∈ keysOf sf1 → y ∈ keysOf sf := by
      intro y hy
      exact @applyName_keys_subset fi fi.shortName store sf y (by rw [h1]; exact hy)
    cases err1 with
    | some e => exact hkeys1 _ h
    | none => exact hkeys1 _ (applyName_keys_subset h)

theorem applyFlag_err_shape {fi : flagInfo} {store : Store} {sf : SF}
    {e : ParseError} (h : (applyFlag fi store sf).2.2 = some e) :
    ∃ s l v, e = ParseError.invalidValue s l v := by
  rw [applyFlag] at h
  cases h1 : applyName fi fi.shortName store sf with
  | mk store1 rest1 =>
    obtain ⟨sf1, err1⟩ := rest1
    rw [h1] at h
    cases err1 with
    | some e1 =>
      simp only [Option.some.injEq] at h
      subst h
      exact applyName_err_shape (by rw [h1])
    | none => exact applyName_err_shape h

theorem applyFlag_getFlag_ne {fi : flagInfo} {store : Store} {sf : SF}
    {a : GoString} (hs : fi.shortName ≠ a) (hl : fi.longName ≠ a) :
    getFlag (applyFlag fi store sf).2.1 a = getFlag sf a := by
  rw [applyFlag]
  cases h1 : applyName fi fi.shortName store sf with
  | mk store1 rest1 =>
    obtain ⟨sf1, err1⟩ := rest1
    have hg1 : getFlag sf1 a = getFlag sf a := by
      have := @applyName_getFlag_ne fi fi.shortName store sf a hs
      rw [h1] at this
      exact this
    cases err1 with
    | some e => exact hg1
    | none => rw [applyName_getFlag_ne hl, hg1]

/-! Lemmas about the whole value-applying loop. -/

theorem applyAll_store_eq {ls : List flagInfo} {store : Store} {sf : SF} {k : Nat}
    (h : ∀ fi ∈ ls, fi.ptr = k → (fi.shortName ∉ keysOf sf ∧ fi.longName ∉ keysOf sf)) :
    (applyAll ls store sf).1 k = store k := by
  induction ls generalizing store sf with
  | nil => rfl
  | cons fi rest ih =>
    rw [applyAll]
    cases h1 : applyFlag fi store sf with
    | mk store1 rest1 =>
      obtain ⟨sf1, err1⟩ := rest1
      have hst1 : store1 k = store k := by
        have := @applyFlag_store_eq fi store sf k (h fi (List.mem_cons_self fi rest))
        rw [h1] at this
        exact this
      cases err1 with
      | some e => exact hst1
      | none =>
        have hkeys1 : ∀ y, y ∈ keysOf sf1 → y ∈ keysOf sf := by
          intro y hy
          exact @applyFlag_keys_subset fi store sf y (by rw [h1]; exact hy)
        rw [ih (fun fj hj hp =>
          ⟨fun hm => (h fj (List.mem_cons_of_mem fi hj) hp).1 (hkeys1 _ hm),
           fun hm => (h fj (List.mem_cons_of_mem fi hj) hp).2 (hkeys1 _ hm)⟩)]
        exact hst1

theorem applyAll_keys_subset {ls : List flagInfo} {store : Store} {sf : SF}
    {x : GoString} (h : x ∈ keysOf (applyAll ls store sf).2.1) : x ∈ keysOf sf := by
  induction ls generalizing store sf with
  | nil => exact h
  | cons fi rest ih =>
    rw [applyAll] at h
    cases h1 : applyFlag fi store sf with
    | mk store1 rest1 =>
      obtain ⟨sf1, err1⟩ := rest1
      rw [h1] at h
      have hkeys1 : ∀ y, y ∈ keysOf sf1 → y ∈ keysOf sf := by
        intro y hy
        exact @applyFlag_keys_subset fi store sf y (by rw [h1]; exact hy)
      cases err1 with
      | some e => exact hkeys1 _ h
      | none => exact hkeys1 _ (ih h)

theorem applyAll_err_shape {ls : List flagInfo} {store : Store} {sf : SF}
    {e : ParseError} (h : (applyAll ls store sf).2.2 = some e) :
    ∃ s l v, e = ParseError.invalidValue s l v := by
  induction ls generalizing store sf with
  | nil => simp [applyAll] at h
  | cons fi rest ih =>
    rw [applyAll] at h
    cases h1 : applyFlag fi store sf with
    | mk store1 rest1 =>
      obtain ⟨sf1, err1⟩ := rest1
      rw [h1] at h
      cases err1 with
      | some e1 =>
        simp only [Option.some.injEq] at h
        subst h
        exact applyFlag_err_shape (by rw [h1])
      | none => exact ih h

theorem applyAll_getFlag_ne {ls : List flagInfo} {store : Store} {sf : SF}
    {a : GoString} (h : ∀ fi ∈ ls, fi.shortName ≠ a ∧ fi.longName ≠ a)
    {store1 : Store} {sf1 : SF}
    (hok : applyAll ls store sf = (store1, sf1, none)) :
    getFlag sf1 a = getFlag sf a := by
  induction ls generalizing store sf with
  | nil =>
    rw [applyAll] at hok
    injection hok with h1 h2
    injection h2 with h2a h2b
    rw [← h2a]
  | cons fi rest ih =>
    rw [applyAll] at hok
    cases h1 : applyFlag fi store sf with
    | mk storeA restA =>
      obtain ⟨sfA, errA⟩ := restA
      rw [h1] at hok
      cases errA with
      | some e => simp at hok
      | none =>
        have hga : getFlag sfA a = getFlag sf a := by
          have := @applyFlag_getFlag_ne fi store sf a
            (h fi (List.mem_cons_self fi rest)).1 (h fi (List.mem_cons_self fi rest)).2
          rw [h1] at this
          exact this
        rw [ih (fun fj hj => h fj (List.mem_cons_of_mem fi hj)) hok, hga]

theorem applyAll_append_err {xs : List flagInfo} {store : Store} {sf : SF}
    {store1 : Store} {sf1 : SF} {e : ParseError}
    (hx : applyAll xs store sf = (store1, sf1, some e)) (ys : List flagInfo) :
    applyAll (xs ++ ys) store sf = (store1, sf1, some e) := by
  induction xs generalizing store sf with
  | nil =>
    rw [applyAll] at hx
    simp at hx
  | cons fi rest ih =>
    rw [applyAll] at hx
    rw [List.cons_append, applyAll]
    cases h1 : applyFlag fi store sf with
    | mk storeA restA =>
      obtain ⟨sfA, errA⟩ := restA
      rw [h1] at hx
      cases errA with
      | some eA => simpa using hx
      | none => exact ih hx

theorem applyAll_append_ok {xs : List flagInfo} {store : Store} {sf : SF}
    {store1 : Store} {sf1 : SF}
    (hx : applyAll xs store sf = (store1, sf1, none)) (ys : List flagInfo) :
    applyAll (xs ++ ys) store sf = applyAll ys store1 sf1 := by
  induction xs generalizing store sf with
  | nil =>
    rw [applyAll] at hx
    injection hx with h1 h2
    injection h2 with h2a h2b
    rw [List.nil_append, h1, h2a]
  | cons fi rest ih =>
    rw [applyAll] at hx
    rw [List.cons_append, applyAll]
    cases h1 : applyFlag fi store sf with
    | mk storeA restA =>
      obtain ⟨sfA, errA⟩ := restA
      rw [h1] at hx
      cases errA with
      | some eA => simp at hx
      | none => exact ih hx

/-! Lemmas about the unknown-flag scan. -/

theorem firstUnknown_eq_none_iff {flags : List flagInfo} {ks : List GoString} :
    firstUnknown flags ks = none ↔ ∀ k ∈ ks, hasFlag flags k = true := by
  induction ks with
  | nil => simp [firstUnknown]
  | cons k rest ih =>
    by_cases hk : hasFlag flags k = true
    · simp [firstUnknown, hk, ih]
    · simp [firstUnknown, hk]

theorem firstUnknown_some_mem {flags : List flagInfo} {ks : List GoString}
    {k : GoString} (h : firstUnknown flags ks = some k) :
    k ∈ ks ∧ hasFlag flags k = false := by
  induction ks with
  | nil => simp [firstUnknown] at h
  | cons k0 rest ih =>
    by_cases hk : hasFlag flags k0 = true
    · rw [firstUnknown, if_pos hk] at h
      obtain ⟨hm, hf⟩ := ih h
      exact ⟨List.mem_cons_of_mem _ hm, hf⟩
    · rw [firstUnknown, if_neg hk] at h
      injection h with h
      subst h
      exact ⟨List.mem_cons_self _ _, by simpa using hk⟩


/-! The keys recorded by the token scan come from the alias parts of
the input tokens. -/

theorem scanArgs_keys {flags : List flagInfo} (args pos : List GoString) (sf : SF)
    (x : GoString) (h : x ∈ keysOf (scanArgs flags args pos sf).2) :
    x ∈ keysOf sf ∨ ∃ t ∈ args, tokenKey t = some x := by
  induction args, pos, sf using scanArgs.induct flags generalizing x with
  | case1 pos sf => exact Or.inl h
  | case2 arg pos sf h1 h2 =>
    simp only [scanArgs] at h
    rw [if_pos h1, if_pos h2] at h
    rcases mem_keysOf_setFlag h with hxk | hmem
    · refine Or.inr ⟨arg, List.mem_cons_self _ _, ?_⟩
      simp only [tokenKey]
      rw [if_pos h1, if_pos h2, hxk]
    · exact Or.inl hmem
  | case3 arg pos sf h1 h2 =>
    simp only [scanArgs] at h
    rw [if_pos h1, if_neg h2] at h
    rcases mem_keysOf_setFlag h with hxk | hmem
    · refine Or.inr ⟨arg, List.mem_cons_self _ _, ?_⟩
      simp only [tokenKey]
      rw [if_pos h1, if_neg h2, hxk]
    · exact Or.inl hmem
  | case4 arg pos sf h1 h2 h3 =>
    simp only [scanArgs] at h
    rw [if_neg h1, if_pos h2, if_pos h3] at h
    rcases mem_keysOf_setFlag h with hxk | hmem
    · refine Or.inr ⟨arg, List.mem_cons_self _ _, ?_⟩
      simp only [tokenKey]
      rw [if_neg h1, if_pos h2, if_pos h3, hxk]
    · exact Or.inl hmem
  | case5 arg pos sf h1 h2 h3 =>
    simp only [scanArgs] at h
    rw [if_neg h1, if_pos h2, if_neg h3] at h
    rcases mem_keysOf_setFlag h with hxk | hmem
    · refine Or.inr ⟨arg, List.mem_cons_self _ _, ?_⟩
      simp only [tokenKey]
      rw [if_neg h1, if_pos h2, if_neg h3, hxk]
    · exact Or.inl hmem
  | case6 arg pos sf h1 h2 =>
    simp only [scanArgs] at h
    rw [if_neg h1, if_neg h2] at h
    exact Or.inl h
  | case7 arg next rest pos sf h1 h2 ih =>
    simp only [scanArgs] at h
    rw [if_pos h1, if_pos h2] at h
    rcases ih x h with hmem | ⟨t, ht, hk⟩
    · rcases mem_keysOf_setFlag hmem with hxk | hmem2
      · refine Or.inr ⟨arg, List.mem_cons_self _ _, ?_⟩
        simp only [tokenKey]
        rw [if_pos h1, if_pos h2, hxk]
      · exact Or.inl hmem2
    · exact Or.inr ⟨t, List.mem_cons_of_mem _ ht, hk⟩
  | case8 arg next rest pos sf h1 h2 h3 ih =>
    simp only [scanArgs] at h
    rw [if_pos h1, if_neg h2, if_pos h3] at h
    rcases ih x h with hmem | ⟨t, ht, hk⟩
    · rcases mem_keysOf_setFlag hmem with hxk | hmem2
      · refine Or.inr ⟨arg, List.mem_cons_self _ _, ?_⟩
        simp only [tokenKey]
        rw [if_pos h1, if_neg h2, hxk]
      · exact Or.inl hmem2
    · exact Or.inr ⟨t, List.mem_cons_of_mem _ (List.mem_cons_of_mem _ ht), hk⟩
  | case9 arg next rest pos sf h1 h2 h3 ih =>
    simp only [scanArgs] at h
    rw [if_pos h1, if_neg h2, if_neg h3] at h
    rcases ih x h with hmem | ⟨t, ht, hk⟩
    · rcases mem_keysOf_setFlag hmem with hxk | hmem2
      · refine Or.inr ⟨arg, List.mem_cons_self _ _, ?_⟩
        simp only [tokenKey]
        rw [if_pos h1, if_neg h2, hxk]
      · exact Or.inl hmem2
    · exact Or.inr ⟨t, List.mem_cons_of_mem _ ht, hk⟩
  | case10 arg next rest pos sf h1 h2 h3 ih =>
    simp only [scanArgs] at h
    rw [if_neg h1, if_pos h2, if_pos h3] at h
    rcases ih x h with hmem | ⟨t, ht, hk⟩
    · rcases mem_keysOf_setFlag hmem with hxk | hmem2
      · refine Or.inr ⟨arg, List.mem_cons_self _ _, ?_⟩
        simp only [tokenKey]
        rw [if_neg h1, if_pos h2, if_pos h3, hxk]
      · exact Or.inl hmem2
    · exact Or.inr ⟨t, List.mem_cons_of_mem _ ht, hk⟩
  | case11 arg next rest pos sf h1 h2 h3 h4 ih =>
    simp only [scanArgs] at h
    rw [if_neg h1, if_pos h2, if_neg h3, if_pos h4] at h
    rcases ih x h with hmem | ⟨t, ht, hk⟩
    · rcases mem_keysOf_setFlag hmem with hxk | hmem2
      · refine Or.inr ⟨arg, List.mem_cons_self _ _, ?_⟩
        simp only [tokenKey]
        rw [if_neg h1, if_pos h2, if_neg h3, hxk]
      · exact Or.inl hmem2
    · exact Or.inr ⟨t, List.mem_cons_of_mem _ (List.mem_cons_of_mem _ ht), hk⟩
  | case12 arg next rest pos sf h1 h2 h3 h4 ih =>
    simp only [scanArgs] at h
    rw [if_neg h1, if_pos h2, if_neg h3, if_neg h4] at h
    rcases ih x h with hmem | ⟨t, ht, hk⟩
    · rcases mem_keysOf_setFlag hmem with hxk | hmem2
      · refine Or.inr ⟨arg, List.mem_cons_self _ _, ?_⟩
        simp only [tokenKey]
        rw [if_neg h1, if_pos h2, if_neg h3, hxk]
      · exact Or.inl hmem2
    · exact Or.inr ⟨t, List.mem_cons_of_mem _ ht, hk⟩
  | case13 arg next rest pos sf h1 h2 ih =>
    simp only [scanArgs] at h
    rw [if_neg h1, if_neg h2] at h
    rcases ih x h with hmem | ⟨t, ht, hk⟩
    · exact Or.inl hmem
    · exact Or.inr ⟨t, List.mem_cons_of_mem _ ht, hk⟩


/-! Help pre-scan. -/

theorem contains_eq_true_iff {slice : List GoString} {item : GoString} :
    contains slice item = true ↔ item ∈ slice := by
  simp [contains, List.any_eq_true]

theorem usageString_ne_nil (p : Parser) : usageString p ≠ [] := by
  intro hcon
  rw [usageString] at hcon
  rw [show str "Usage of " = 'U' :: str "sage of " from rfl] at hcon
  simp at hcon

/-- C2: whenever the input token list contains the exact token --help
or the exact token -h anywhere, Parse returns the parser with the usage
text appended to its output sink, the store untouched (so every target
slot keeps its value from before the call, the registration-time
default), and the distinguished help-requested outcome; the usage text
written is non-empty. -/
theorem C2_help_short_circuits (p : Parser) (store : Store) (args : List GoString)
    (h : str "--help" ∈ args ∨ str "-h" ∈ args) :
    Parse p store args = (Usage p, store, some ErrHelpRequested)
    ∧ (Usage p).output = p.output ++ usageString p
    ∧ usageString p ≠ [] := by
  refine ⟨?_, rfl, usageString_ne_nil p⟩
  have hc : (contains args (str "--help") || contains args (str "-h")) = true := by
    rw [Bool.or_eq_true]
    rcases h with h | h
    · exact Or.inl (contains_eq_true_iff.mpr h)
    · exact Or.inr (contains_eq_true_iff.mpr h)
  rw [Parse, ParseWith, if_pos hc]

/-- C2 witness: a concrete parser and the input --help. -/
theorem C2_witness :
    Parse (NewParser []) st0 [str "--help"]
      = (Usage (NewParser []), st0, some ErrHelpRequested)
    ∧ (Usage (NewParser [])).output = (NewParser []).output ++ usageString (NewParser [])
    ∧ usageString (NewParser []) ≠ [] :=
  C2_help_short_circuits (NewParser []) st0 [str "--help"] (Or.inl (by decide))

/-- C5 amended: a descriptor with both aliases empty is unreachable
from any input none of whose tokens has an empty alias part (no bare
double-dash, no token of the form dashes-equals-value); on such inputs
Parse leaves its target slot untouched, provided every descriptor
targeting that slot has empty aliases. -/
theorem C5_amended (p : Parser) (store : Store) (args : List GoString) (k : Nat)
    (hemp : ∀ fi ∈ p.flags, fi.ptr = k → fi.shortName = [] ∧ fi.longName = [])
    (htok : ∀ t ∈ args, tokenKey t ≠ some ([] : GoString)) :
    (Parse p store args).2.1 k = store k := by
  simp only [Parse, ParseWith]
  by_cases hc : (contains args (str "--help") || contains args (str "-h")) = true
  · rw [if_pos hc]
  · rw [if_neg hc]
    have hnil : ([] : GoString) ∉ keysOf (scanArgs p.flags args [] []).2 := by
      intro hmem
      rcases scanArgs_keys args [] [] _ hmem with h0 | ⟨t, ht, hk⟩
      · simp [keysOf] at h0
      · exact htok t ht hk
    have hstore : (applyAll p.flags.reverse store (scanArgs p.flags args [] []).2).1 k
        = store k := by
      apply applyAll_store_eq
      intro fi hfi hp
      obtain ⟨hs, hl⟩ := hemp fi (List.mem_reverse.mp hfi) hp
      rw [hs, hl]
      exact ⟨hnil, hnil⟩
    cases happ : applyAll p.flags.reverse store (scanArgs p.flags args [] []).2 with
    | mk store1 rest1 =>
      obtain ⟨sf1, err1⟩ := rest1
      rw [happ] at hstore
      cases err1 with
      | some e => simpa [happ] using hstore
      | none =>
        cases hfu : firstUnknown p.flags (keysOf sf1) with
        | some kk => simpa [happ, hfu] using hstore
        | none => simpa [happ, hfu] using hstore

/-- C5 amended witness: the empty-alias descriptor and an input with a
positional and an ordinary short flag token. -/
theorem C5_amended_witness :
    (Parse c5regs.1 c5regs.2 [str "pos", str "-v"]).2.1 0 = c5regs.2 0 :=
  C5_amended c5regs.1 c5regs.2 [str "pos", str "-v"] 0 (by decide) (by decide)

/-- C6 amended: after any Parse call that succeeds, a registered flag
keeps its registered default in its target slot provided the slot held
that default before the call (as registration leaves it) and no
registered descriptor targeting the same slot had an alias recorded by
the token scan.  (The amendment adds the same-slot proviso: without it
a second descriptor registered onto the same slot overwrites the
default, as the counterexample shows.) -/
theorem C6_amended (p : Parser) (store : Store) (args : List GoString)
    (fi : flagInfo) (hmem : fi ∈ p.flags)
    (hdef : store fi.ptr = fi.defaultValue)
    (hnoval : ∀ fj ∈ p.flags, fj.ptr = fi.ptr →
      fj.shortName ∉ keysOf (scanArgs p.flags args [] []).2 ∧
      fj.longName ∉ keysOf (scanArgs p.flags args [] []).2)
    (hsucc : (Parse p store args).2.2 = none) :
    (Parse p store args).2.1 fi.ptr = fi.defaultValue := by
  simp only [Parse, ParseWith]
  by_cases hc : (contains args (str "--help") || contains args (str "-h")) = true
  · rw [if_pos hc]
    exact hdef
  · rw [if_neg hc]
    have hstore : (applyAll p.flags.reverse store (scanArgs p.flags args [] []).2).1 fi.ptr
        = store fi.ptr := by
      apply applyAll_store_eq
      intro fj hfj hp
      exact hnoval fj (List.mem_reverse.mp hfj) hp
    cases happ : applyAll p.flags.reverse store (scanArgs p.flags args [] []).2 with
    | mk store1 rest1 =>
      obtain ⟨sf1, err1⟩ := rest1
      rw [happ] at hstore
      rw [hdef] at hstore
      cases err1 with
      | some e => simpa [happ] using hstore
      | none =>
        cases hfu : firstUnknown p.flags (keysOf sf1) with
        | some kk => simpa [happ, hfu] using hstore
        | none => simpa [happ, hfu] using hstore

/-- C6 amended witness: a single registered flag, an input consisting
of one positional token, so no alias receives a value. -/
theorem C6_amended_witness :
    (Parse c4regs.1 c4regs.2 [str "hello"]).2.1
        ({ shortName := str "n", longName := str "name", ptr := 0,
           defaultValue := Value.str (str "d"), description := [],
           kind := Kind.kstring } : flagInfo).ptr
      = ({ shortName := str "n", longName := str "name", ptr := 0,
           defaultValue := Value.str (str "d"), description := [],
           kind := Kind.kstring } : flagInfo).defaultValue :=
  C6_amended c4regs.1 c4regs.2 [str "hello"] _ (by decide) (by decide) (by decide) (by decide)


/-! Evaluation lemmas for applyName and the int-kind failure. -/

theorem applyName_none {fi : flagInfo} {name : GoString} {store : Store} {sf : SF}
    (h : getFlag sf name = none) : applyName fi name store sf = (store, sf, none) := by
  simp only [applyName, h]

theorem applyName_int_err {fi : flagInfo} {name : GoString} {store : Store} {sf : SF}
    {val : GoString} (hk : fi.kind = Kind.kint) (h : getFlag sf name = some val)
    (ha : atoi val = none) :
    applyName fi name store sf
      = (store, sf, some (ParseError.invalidValue fi.shortName fi.longName val)) := by
  simp only [applyName, h, hk, ha]

theorem applyName_int_ok {fi : flagInfo} {name : GoString} {store : Store} {sf : SF}
    {val : GoString} {n : Int} (hk : fi.kind = Kind.kint) (h : getFlag sf name = some val)
    (ha : atoi val = some n) :
    applyName fi name store sf
      = (updStore store fi.ptr (Value.int n), delFlag sf name, none) := by
  simp only [applyName, h, hk, ha]

theorem atoi_true_eq_none : atoi (str "true") = none := by decide

/-- If an int-kind flag finds the raw value true recorded under one of
its aliases, applying that flag fails with an invalid-value error. -/
theorem applyFlag_int_true_err {fi : flagInfo} {store : Store} {sf : SF} {a : GoString}
    (hkind : fi.kind = Kind.kint)
    (ha : a = fi.shortName ∨ a = fi.longName)
    (hget : getFlag sf a = some (str "true")) :
    ∃ st' sf' s l v,
      applyFlag fi store sf = (st', sf', some (ParseError.invalidValue s l v)) := by
  by_cases hsa : fi.shortName = a
  · have hgs : getFlag sf fi.shortName = some (str "true") := by rw [hsa]; exact hget
    refine ⟨store, sf, fi.shortName, fi.longName, str "true", ?_⟩
    simp only [applyFlag, applyName_int_err hkind hgs atoi_true_eq_none]
  · have ha' : a = fi.longName := by
      rcases ha with h | h
      · exact absurd h.symm hsa
      · exact h
    have hgl : getFlag sf fi.longName = some (str "true") := by rw [← ha']; exact hget
    cases hgs : getFlag sf fi.shortName with
    | none =>
      refine ⟨store, sf, fi.shortName, fi.longName, str "true", ?_⟩
      simp only [applyFlag, applyName_none hgs,
        applyName_int_err hkind hgl atoi_true_eq_none]
    | some v0 =>
      cases hat : atoi v0 with
      | none =>
        refine ⟨store, sf, fi.shortName, fi.longName, v0, ?_⟩
        simp only [applyFlag, applyName_int_err hkind hgs hat]
      | some n =>
        have hdel : getFlag (delFlag sf fi.shortName) fi.longName = some (str "true") := by
          rw [getFlag_delFlag_ne (fun hh => hsa (hh.symm.trans ha'.symm))]
          exact hgl
        refine ⟨updStore store fi.ptr (Value.int n), delFlag sf fi.shortName,
          fi.shortName, fi.longName, str "true", ?_⟩
        simp only [applyFlag, applyName_int_ok hkind hgs hat,
          applyName_int_err hkind hdel atoi_true_eq_none]

theorem applyAll_cons_err {fi : flagInfo} {rest : List flagInfo} {store : Store}
    {sf : SF} {st' : Store} {sf' : SF} {e : ParseError}
    (h : applyFlag fi store sf = (st', sf', some e)) :
    applyAll (fi :: rest) store sf = (st', sf', some e) := by
  simp only [applyAll, h]

/-- C4 amended: the claim holds for Int-kind flags only.  If, after the
token scan, an alias of a registered Int flag is recorded with the raw
value true - exactly what a bare occurrence with no usable following
value records - then, provided no other registered descriptor shares
that alias and the input contains no help token, Parse fails with an
invalid-value parse error.  (For String flags the original claim is
false: the literal true is stored silently, per the counterexample.) -/
theorem C4_amended (p : Parser) (store : Store) (args : List GoString)
    (l1 l2 : List flagInfo) (fi : flagInfo) (a : GoString)
    (hflags : p.flags = l1 ++ fi :: l2)
    (hkind : fi.kind = Kind.kint)
    (ha : a = fi.shortName ∨ a = fi.longName)
    (hother : ∀ fj ∈ l1 ++ l2, fj.shortName ≠ a ∧ fj.longName ≠ a)
    (hval : getFlag (scanArgs p.flags args [] []).2 a = some (str "true"))
    (hnohelp : (contains args (str "--help") || contains args (str "-h")) = false) :
    ∃ s l v, (Parse p store args).2.2 = some (ParseError.invalidValue s l v) := by
  simp only [Parse, ParseWith]
  rw [if_neg (by rw [hnohelp]; exact Bool.false_ne_true)]
  have hrev : p.flags.reverse = l2.reverse ++ fi :: l1.reverse := by
    rw [hflags]
    simp [List.reverse_append]
  cases happ2 : applyAll l2.reverse store (scanArgs p.flags args [] []).2 with
  | mk storeA restA =>
    obtain ⟨sfA, errA⟩ := restA
    cases errA with
    | some e =>
      have hall : applyAll p.flags.reverse store (scanArgs p.flags args [] []).2
          = (storeA, sfA, some e) := by
        rw [hrev]
        exact applyAll_append_err happ2 _
      obtain ⟨s, l, v, he⟩ := applyAll_err_shape
        (show (applyAll l2.reverse store (scanArgs p.flags args [] []).2).2.2 = some e
          by rw [happ2])
      subst he
      refine ⟨s, l, v, ?_⟩
      rw [hall]
    | none =>
      have hga : getFlag sfA a = some (str "true") := by
        rw [applyAll_getFlag_ne
          (fun fj hj => hother fj (List.mem_append_right l1 (List.mem_reverse.mp hj)))
          happ2]
        exact hval
      obtain ⟨st', sf', s, l, v, hflagerr⟩ :=
        @applyFlag_int_true_err fi storeA sfA a hkind ha hga
      have hall : applyAll p.flags.reverse store (scanArgs p.flags args [] []).2
          = (st', sf', some (ParseError.invalidValue s l v)) := by
        rw [hrev, applyAll_append_ok happ2, applyAll_cons_err hflagerr]
      refine ⟨s, l, v, ?_⟩
      rw [hall]

/-- C4 amended witness: a single int flag a/age and the bare input
token dash-dash-age. -/
theorem C4_amended_witness :
    ∃ s l v, (Parse c4iregs.1 c4iregs.2 [str "--age"]).2.2
      = some (ParseError.invalidValue s l v) :=
  C4_amended c4iregs.1 c4iregs.2 [str "--age"] [] []
    { shortName := str "a", longName := str "age", ptr := 0,
      defaultValue := Value.int 7, description := [], kind := Kind.kint }
    (str "age")
    (by decide) (by decide) (Or.inr (by decide)) (by decide) (by decide) (by decide)


/-- C9 amended: for a fixed registration sequence and input, any two
runs of Parse - modelled by any two iteration orders of the final
setFlags map - produce the same parser state (hence the same positional
list), the same store (hence the same slot values), and either exactly
the same outcome or two UnknownFlag errors, which may name different
aliases.  The alias named in the UnknownFlag error is the one thing not
fixed across runs, as the counterexample shows. -/
theorem C9_amended (p : Parser) (store : Store) (args : List GoString)
    (it1 it2 : SF → List GoString)
    (h1 : ∀ sf, (it1 sf).Perm (keysOf sf)) (h2 : ∀ sf, (it2 sf).Perm (keysOf sf)) :
    (ParseWith p store args it1).1 = (ParseWith p store args it2).1
    ∧ (ParseWith p store args it1).2.1 = (ParseWith p store args it2).2.1
    ∧ ((ParseWith p store args it1).2.2 = (ParseWith p store args it2).2.2
       ∨ ∃ k1 k2, (ParseWith p store args it1).2.2 = some (ParseError.unknownFlag k1)
          ∧ (ParseWith p store args it2).2.2 = some (ParseError.unknownFlag k2)) := by
  simp only [ParseWith]
  by_cases hc : (contains args (str "--help") || contains args (str "-h")) = true
  · rw [if_pos hc, if_pos hc]
    exact ⟨rfl, rfl, Or.inl rfl⟩
  · rw [if_neg hc, if_neg hc]
    cases happ : applyAll p.flags.reverse store (scanArgs p.flags args [] []).2 with
    | mk store1 rest1 =>
      obtain ⟨sf1, err1⟩ := rest1
      cases err1 with
      | some e =>
        refine ⟨?_, ?_, Or.inl ?_⟩ <;> simp [happ]
      | none =>
        cases hf1 : firstUnknown p.flags (it1 sf1) with
        | none =>
          cases hf2 : firstUnknown p.flags (it2 sf1) with
          | none => refine ⟨?_, ?_, Or.inl ?_⟩ <;> simp [happ, hf1, hf2]
          | some k =>
            exfalso
            obtain ⟨hkmem, hkflag⟩ := firstUnknown_some_mem hf2
            have hmem1 : k ∈ it1 sf1 :=
              ((h1 sf1).mem_iff).mpr (((h2 sf1).mem_iff).mp hkmem)
            have := firstUnknown_eq_none_iff.mp hf1 k hmem1
            rw [hkflag] at this
            exact Bool.false_ne_true this
        | some k =>
          cases hf2 : firstUnknown p.flags (it2 sf1) with
          | none =>
            exfalso
            obtain ⟨hkmem, hkflag⟩ := firstUnknown_some_mem hf1
            have hmem2 : k ∈ it2 sf1 :=
              ((h2 sf1).mem_iff).mpr (((h1 sf1).mem_iff).mp hkmem)
            have := firstUnknown_eq_none_iff.mp hf2 k hmem2
            rw [hkflag] at this
            exact Bool.false_ne_true this
          | some k2 =>
            refine ⟨?_, ?_, Or.inr ⟨k, k2, ?_, ?_⟩⟩ <;> simp [happ, hf1, hf2]

/-- C9 amended witness: the insertion order and its reverse are both
iteration orders of the map; the guarantee is obtained for the concrete
no-flags parser on the input -x -y. -/
theorem C9_amended_witness :
    (ParseWith (NewParser []) st0 c9args keysOf).1
      = (ParseWith (NewParser []) st0 c9args (fun sf => (keysOf sf).reverse)).1
    ∧ (ParseWith (NewParser []) st0 c9args keysOf).2.1
      = (ParseWith (NewParser []) st0 c9args (fun sf => (keysOf sf).reverse)).2.1
    ∧ ((ParseWith (NewParser []) st0 c9args keysOf).2.2
        = (ParseWith (NewParser []) st0 c9args (fun sf => (keysOf sf).reverse)).2.2
       ∨ ∃ k1 k2, (ParseWith (NewParser []) st0 c9args keysOf).2.2
            = some (ParseError.unknownFlag k1)
          ∧ (ParseWith (NewParser []) st0 c9args (fun sf => (keysOf sf).reverse)).2.2
            = some (ParseError.unknownFlag k2)) :=
  C9_amended (NewParser []) st0 c9args keysOf (fun sf => (keysOf sf).reverse)
    (fun sf => List.Perm.refl _) (fun sf => List.reverse_perm _)

/-! A value token that does not begin with a dash is neither help token. -/

theorem ne_help_of_no_dash {v : GoString} (hv : (str "-").isPrefixOf v = false) :
    (v == str "--help") = false ∧ (v == str "-h") = false := by
  constructor
  · rw [beq_eq_false_iff_ne]
    intro h
    subst h
    exact absurd hv (by decide)
  · rw [beq_eq_false_iff_ne]
    intro h
    subst h
    exact absurd hv (by decide)


theorem eqFalse_ne_true {b : Bool} (h : b = false) : ¬ b = true := by
  rw [h]
  exact Bool.false_ne_true

theorem applyAll_singleton (fi : flagInfo) (store : Store) (sf : SF) :
    applyAll [fi] store sf = applyFlag fi store sf := by
  cases h : applyFlag fi store sf with
  | mk s r =>
    obtain ⟨f, err⟩ := r
    cases err <;> simp [applyAll, h]

theorem c7scanL (k : Kind) (dflt : Value) (v : GoString)
    (hv : (str "-").isPrefixOf v = false)
    (hnv : needsValue (c7parser k dflt).flags (List.drop 1 (str "-x")) = true) :
    scanArgs (c7parser k dflt).flags [str "-x", v] [] [] = ([], [(str "x", v)]) := by
  simp only [scanArgs]
  rw [if_neg (eqFalse_ne_true (by decide)), if_pos (by decide),
    if_neg (eqFalse_ne_true (by decide)), if_pos (by rw [hv, hnv]; rfl)]
  rfl

theorem c7scanR (k : Kind) (dflt : Value) (v : GoString) :
    scanArgs (c7parser k dflt).flags [str "--longname=" ++ v] [] []
      = ([], [(str "longname", v)]) := by
  have e1 : List.isPrefixOf (str "--") (str "--longname=" ++ v) = true := rfl
  have e2 : List.contains (str "--longname=" ++ v) '=' = true := rfl
  have e3 : splitEq (List.drop 2 (str "--longname=" ++ v)) = (str "longname", v) := rfl
  simp only [scanArgs]
  rw [if_pos e1, if_pos e2, e3]
  rfl

/-- C7: for a flag registered with short alias x and long alias
longname of a value-taking kind (string or int), parsing the
space-separated short form and parsing the equals-joined long form with
the same raw value leave the target slot holding the same value. -/
theorem C7_alias_equivalence (k : Kind) (hk : k ≠ Kind.kbool) (dflt : Value)
    (store : Store) (v : GoString) (hv : (str "-").isPrefixOf v = false) :
    (Parse (c7parser k dflt) store [str "-x", v]).2.1 0
      = (Parse (c7parser k dflt) store [str "--longname=" ++ v]).2.1 0 := by
  have hnh := ne_help_of_no_dash hv
  have hcL : (contains [str "-x", v] (str "--help")
      || contains [str "-x", v] (str "-h")) = false := by
    simp only [contains, List.any_cons, List.any_nil, hnh.1, hnh.2]
    decide
  have r1 : ((str "--longname=" ++ v) == str "--help") = false := rfl
  have r2 : ((str "--longname=" ++ v) == str "-h") = false := rfl
  have hcR : (contains [str "--longname=" ++ v] (str "--help")
      || contains [str "--longname=" ++ v] (str "-h")) = false := by
    simp only [contains, List.any_cons, List.any_nil, r1, r2]
    decide
  cases k with
  | kbool => exact absurd rfl hk
  | kstring =>
    have hsL := c7scanL Kind.kstring dflt v hv rfl
    have hsR := c7scanR Kind.kstring dflt v
    have happL : applyAll (c7parser Kind.kstring dflt).flags.reverse store
        [(str "x", v)] = (updStore store 0 (Value.str v), [], none) := by
      simp +decide [applyAll, applyFlag, applyName, getFlag, delFlag, c7parser, c7flag]
    have happR : applyAll (c7parser Kind.kstring dflt).flags.reverse store
        [(str "longname", v)] = (updStore store 0 (Value.str v), [], none) := by
      simp +decide [applyAll, applyFlag, applyName, getFlag, delFlag, c7parser, c7flag]
    have hL : (Parse (c7parser Kind.kstring dflt) store [str "-x", v]).2.1
        = updStore store 0 (Value.str v) := by
      simp only [Parse, ParseWith]
      rw [if_neg (eqFalse_ne_true hcL), hsL]
      simp only [happL, firstUnknown, keysOf, List.map_nil]
    have hR : (Parse (c7parser Kind.kstring dflt) store [str "--longname=" ++ v]).2.1
        = updStore store 0 (Value.str v) := by
      simp only [Parse, ParseWith]
      rw [if_neg (eqFalse_ne_true hcR), hsR]
      simp only [happR, firstUnknown, keysOf, List.map_nil]
    rw [hL, hR]
  | kint =>
    have hsL := c7scanL Kind.kint dflt v hv rfl
    have hsR := c7scanR Kind.kint dflt v
    cases hat : atoi v with
    | none =>
      have happL : applyAll (c7parser Kind.kint dflt).flags.reverse store
          [(str "x", v)]
          = (store, [(str "x", v)], some (ParseError.invalidValue (str "x")
              (str "longname") v)) := by
        simp +decide [applyAll, applyFlag, applyName, getFlag, delFlag, c7parser,
          c7flag, hat]
      have happR : applyAll (c7parser Kind.kint dflt).flags.reverse store
          [(str "longname", v)]
          = (store, [(str "longname", v)], some (ParseError.invalidValue (str "x")
              (str "longname") v)) := by
        simp +decide [applyAll, applyFlag, applyName, getFlag, delFlag, c7parser,
          c7flag, hat]
      have hL : (Parse (c7parser Kind.kint dflt) store [str "-x", v]).2.1 = store := by
        simp only [Parse, ParseWith]
        rw [if_neg (eqFalse_ne_true hcL), hsL]
        simp only [happL]
      have hR : (Parse (c7parser Kind.kint dflt) store [str "--longname=" ++ v]).2.1
          = store := by
        simp only [Parse, ParseWith]
        rw [if_neg (eqFalse_ne_true hcR), hsR]
        simp only [happR]
      rw [hL, hR]
    | some n =>
      have happL : applyAll (c7parser Kind.kint dflt).flags.reverse store
          [(str "x", v)] = (updStore store 0 (Value.int n), [], none) := by
        simp +decide [applyAll, applyFlag, applyName, getFlag, delFlag, c7parser,
          c7flag, hat]
      have happR : applyAll (c7parser Kind.kint dflt).flags.reverse store
          [(str "longname", v)] = (updStore store 0 (Value.int n), [], none) := by
        simp +decide [applyAll, applyFlag, applyName, getFlag, delFlag, c7parser,
          c7flag, hat]
      have hL : (Parse (c7parser Kind.kint dflt) store [str "-x", v]).2.1
          = updStore store 0 (Value.int n) := by
        simp only [Parse, ParseWith]
        rw [if_neg (eqFalse_ne_true hcL), hsL]
        simp only [happL, firstUnknown, keysOf, List.map_nil]
      have hR : (Parse (c7parser Kind.kint dflt) store [str "--longname=" ++ v]).2.1
          = updStore store 0 (Value.int n) := by
        simp only [Parse, ParseWith]
        rw [if_neg (eqFalse_ne_true hcR), hsR]
        simp only [happR, firstUnknown, keysOf, List.map_nil]
      rw [hL, hR]

/-- C7 witness: string kind, value val, both forms leave the slot equal. -/
theorem C7_witness :
    (Parse (c7parser Kind.kstring (Value.str (str "d"))) st0 [str "-x", str "val"]).2.1 0
      = (Parse (c7parser Kind.kstring (Value.str (str "d"))) st0
          [str "--longname=" ++ str "val"]).2.1 0 :=
  C7_alias_equivalence Kind.kstring (by decide) (Value.str (str "d")) st0 (str "val")
    (by decide)


theorem c10scan1 (dflt A B : GoString) (hA : (str "-").isPrefixOf A = false) :
    scanArgs (c10parser dflt).flags [str "-n", A, str "--name=" ++ B] [] []
      = ([], [(str "n", A), (str "name", B)]) := by
  have e1 : List.isPrefixOf (str "--") (str "--name=" ++ B) = true := rfl
  have e2 : List.contains (str "--name=" ++ B) '=' = true := rfl
  have e3 : splitEq (List.drop 2 (str "--name=" ++ B)) = (str "name", B) := rfl
  simp only [scanArgs]
  rw [if_neg (eqFalse_ne_true (by decide)), if_pos (by decide),
    if_neg (eqFalse_ne_true (by decide)), if_pos (by rw [hA]; rfl),
    if_pos e1, if_pos e2, e3]
  rfl

theorem c10scan2 (dflt A B : GoString) (hA : (str "-").isPrefixOf A = false) :
    scanArgs (c10parser dflt).flags [str "--name=" ++ B, str "-n", A] [] []
      = ([], [(str "name", B), (str "n", A)]) := by
  have e1 : List.isPrefixOf (str "--") (str "--name=" ++ B) = true := rfl
  have e2 : List.contains (str "--name=" ++ B) '=' = true := rfl
  have e3 : splitEq (List.drop 2 (str "--name=" ++ B)) = (str "name", B) := rfl
  simp only [scanArgs]
  rw [if_pos e1, if_pos e2, e3,
    if_neg (eqFalse_ne_true (by decide)), if_pos (by decide),
    if_neg (eqFalse_ne_true (by decide)), if_pos (by rw [hA]; rfl)]
  rfl

/-- C10: with a single descriptor carrying both the short alias n and
the long alias name, an input that assigns A through the short alias
and B through the long alias leaves the slot holding B - the value
given via the long alias - in either order of the two assignments,
because within one descriptor the short alias is applied before the
long alias. -/
theorem C10_long_alias_applied_last (dflt : GoString) (store : Store) (A B : GoString)
    (hA : (str "-").isPrefixOf A = false) :
    (Parse (c10parser dflt) store [str "-n", A, str "--name=" ++ B]).2.2 = none
    ∧ (Parse (c10parser dflt) store [str "-n", A, str "--name=" ++ B]).2.1 0
      = Value.str B
    ∧ (Parse (c10parser dflt) store [str "--name=" ++ B, str "-n", A]).2.2 = none
    ∧ (Parse (c10parser dflt) store [str "--name=" ++ B, str "-n", A]).2.1 0
      = Value.str B := by
  have hnh := ne_help_of_no_dash hA
  have r1 : ((str "--name=" ++ B) == str "--help") = false := rfl
  have r2 : ((str "--name=" ++ B) == str "-h") = false := rfl
  have hc1 : (contains [str "-n", A, str "--name=" ++ B] (str "--help")
      || contains [str "-n", A, str "--name=" ++ B] (str "-h")) = false := by
    simp only [contains, List.any_cons, List.any_nil, hnh.1, hnh.2, r1, r2]
    decide
  have hc2 : (contains [str "--name=" ++ B, str "-n", A] (str "--help")
      || contains [str "--name=" ++ B, str "-n", A] (str "-h")) = false := by
    simp only [contains, List.any_cons, List.any_nil, hnh.1, hnh.2, r1, r2]
    decide
  have happ1 : applyAll (c10parser dflt).flags.reverse store
      [(str "n", A), (str "name", B)]
      = (updStore (updStore store 0 (Value.str A)) 0 (Value.str B), [], none) := by
    simp +decide [applyAll, applyFlag, applyName, getFlag, delFlag, c10parser, c10flag]
  have happ2 : applyAll (c10parser dflt).flags.reverse store
      [(str "name", B), (str "n", A)]
      = (updStore (updStore store 0 (Value.str A)) 0 (Value.str B), [], none) := by
    simp +decide [applyAll, applyFlag, applyName, getFlag, delFlag, c10parser, c10flag]
  have h1 : Parse (c10parser dflt) store [str "-n", A, str "--name=" ++ B]
      = ({ c10parser dflt with positional := [] },
         updStore (updStore store 0 (Value.str A)) 0 (Value.str B), none) := by
    simp only [Parse, ParseWith]
    rw [if_neg (eqFalse_ne_true hc1), c10scan1 dflt A B hA]
    simp only [happ1, firstUnknown, keysOf, List.map_nil]
  have h2 : Parse (c10parser dflt) store [str "--name=" ++ B, str "-n", A]
      = ({ c10parser dflt with positional := [] },
         updStore (updStore store 0 (Value.str A)) 0 (Value.str B), none) := by
    simp only [Parse, ParseWith]
    rw [if_neg (eqFalse_ne_true hc2), c10scan2 dflt A B hA]
    simp only [happ2, firstUnknown, keysOf, List.map_nil]
  refine ⟨?_, ?_, ?_, ?_⟩
  · rw [h1]
  · rw [h1]
    simp [updStore]
  · rw [h2]
  · rw [h2]
    simp [updStore]

/-- C10 witness: concrete values A and B in both orders. -/
theorem C10_witness :
    (Parse (c10parser (str "d")) st0 [str "-n", str "A", str "--name=" ++ str "B"]).2.2
      = none
    ∧ (Parse (c10parser (str "d")) st0
        [str "-n", str "A", str "--name=" ++ str "B"]).2.1 0 = Value.str (str "B")
    ∧ (Parse (c10parser (str "d")) st0
        [str "--name=" ++ str "B", str "-n", str "A"]).2.2 = none
    ∧ (Parse (c10parser (str "d")) st0
        [str "--name=" ++ str "B", str "-n", str "A"]).2.1 0 = Value.str (str "B") :=
  C10_long_alias_applied_last (str "d") st0 (str "A") (str "B") (by decide)

/-- C1: after registering StringVar(name, n, name, default), IntVar(age,
a, age, 0) and BoolVar(verbose, v, verbose, false), parsing the tokens
-n Jane, -a=25, -v, push succeeds and leaves name Jane, age 25, verbose
true, and Args exactly the single positional push. -/
theorem C1_concrete_scenario :
    (Parse c1regs.1 c1regs.2 c1args).2.2 = none
    ∧ (Parse c1regs.1 c1regs.2 c1args).2.1 0 = Value.str (str "Jane")
    ∧ (Parse c1regs.1 c1regs.2 c1args).2.1 1 = Value.int 25
    ∧ (Parse c1regs.1 c1regs.2 c1args).2.1 2 = Value.bool true
    ∧ Args (Parse c1regs.1 c1regs.2 c1args).1 = [str "push"] := by
  decide

/-- C3: with two descriptors registered sharing the short alias n and
holding distinct slots, parsing -n test succeeds, sets only the
later-registered descriptor slot to test, and leaves the earlier
descriptor slot at its own registered default d1. -/
theorem C3_last_duplicate_wins :
    (Parse c3regs.1 c3regs.2 [str "-n", str "test"]).2.2 = none
    ∧ (Parse c3regs.1 c3regs.2 [str "-n", str "test"]).2.1 1 = Value.str (str "test")
    ∧ (Parse c3regs.1 c3regs.2 [str "-n", str "test"]).2.1 0 = Value.str (str "d1") := by
  decide

/-- C4 counterexample: the registered non-bool string flag n/name
appears in the input as the bare token --name with no following value,
yet Parse succeeds (it does not fail with an invalid-value error as the
claim requires) and silently stores the literal string true. -/
theorem C4_counterexample :
    (Parse c4regs.1 c4regs.2 [str "--name"]).2.2 = none
    ∧ (Parse c4regs.1 c4regs.2 [str "--name"]).2.1 0 = Value.str (str "true") := by
  decide

/-- C5 counterexample: a descriptor registered with both aliases empty
is reachable from input after all: the token --=test assigns the raw
value test to the empty alias, and Parse writes test, not the
registered default d, into the descriptor slot. -/
theorem C5_counterexample :
    (Parse c5regs.1 c5regs.2 [str "--=test"]).2.2 = none
    ∧ (Parse c5regs.1 c5regs.2 [str "--=test"]).2.1 0 = Value.str (str "test")
    ∧ (Parse c5regs.1 c5regs.2 [str "--=test"]).2.1 0 ≠ Value.str (str "d") := by
  decide

/-- C6 counterexample: two descriptors registered onto the same slot
with distinct defaults; on the empty input Parse succeeds and the
earlier descriptor, none of whose aliases received a value, finds its
target slot holding the later registration default defB rather than its
own registered default defA. -/
theorem C6_counterexample :
    (Parse c6regs.1 c6regs.2 []).2.2 = none
    ∧ (Parse c6regs.1 c6regs.2 []).2.1 0 = Value.str (str "defB")
    ∧ (Parse c6regs.1 c6regs.2 []).2.1 0 ≠ Value.str (str "defA") := by
  decide

/-- C8: a concrete registration sequence (int flag a/age registered
before string flag s/st) and input on which Parse returns the
invalid-value error caused by the int flag while the string flag slot,
written earlier in the same call, keeps its new value hello instead of
its default d: no rollback. -/
theorem C8_no_rollback :
    (Parse c8regs.1 c8regs.2 [str "-s", str "hello", str "-a=bad"]).2.2
      = some (ParseError.invalidValue (str "a") (str "age") (str "bad"))
    ∧ (Parse c8regs.1 c8regs.2 [str "-s", str "hello", str "-a=bad"]).2.1 1
      = Value.str (str "hello")
    ∧ (Parse c8regs.1 c8regs.2 [str "-s", str "hello", str "-a=bad"]).2.1 1
      ≠ Value.str (str "d") := by
  decide

/-- C9 counterexample: with no flags registered and input -x -y, the
final setFlags map has exactly the keys x and y; both listed orders are
permutations of those keys, hence legitimate iteration orders of the Go
map, yet one run names x in the unknown-flag error and the other names
y: the alias reported is not the same on every run. -/
theorem C9_counterexample :
    ([str "x", str "y"]).Perm (keysOf (scanArgs [] c9args [] []).2)
    ∧ ([str "y", str "x"]).Perm (keysOf (scanArgs [] c9args [] []).2)
    ∧ (ParseWith (NewParser []) st0 c9args (fun _ => [str "x", str "y"])).2.2
      = some (ParseError.unknownFlag (str "x"))
    ∧ (ParseWith (NewParser []) st0 c9args (fun _ => [str "y", str "x"])).2.2
      = some (ParseError.unknownFlag (str "y")) := by
  decide

end GoArgs
